import Mathlib

/-!
Verification development for the card-prediction engine of the repository
(`card_predictor.py`, `handlers.py`).  Message texts are modelled as
`List Char` (Python `str` is a sequence of Unicode code points).  Each
definition is a direct shallow embedding of the corresponding Python
function; timestamps (Python floats, consumed only through subtraction
and order comparison) are modelled as integers.
-/

namespace CardPredictor

/-- Unicode code point of the spade suit glyph base character. -/
def spadeChar : Char := '\u2660'

/-- Unicode code point of the heart suit glyph base character. -/
def heartChar : Char := '\u2665'

/-- Unicode code point of the diamond suit glyph base character. -/
def diamondChar : Char := '\u2666'

/-- Unicode code point of the club suit glyph base character. -/
def clubChar : Char := '\u2663'

/-- Unicode code point of the red-heart emoji base character (the variant
folded to the heart suit by `normalize_emoji`). -/
def redHeartChar : Char := '\u2764'

/-- Variation selector 16; every suit glyph in the source is the base
character followed by this selector. -/
def vs16 : Char := '\uFE0F'

/-- Alarm-clock glyph, one of the pending indicators. -/
def alarmClockChar : Char := '\u23F0'

/-- Play-button glyph, one of the pending indicators. -/
def playChar : Char := '\u25B6'

/-- Clock-face glyph, one of the pending indicators. -/
def clockFaceChar : Char := Char.ofNat 0x1F550

/-- Arrow glyph base character; the pending indicator is this character
followed by variation selector 16. -/
def arrowChar : Char := '\u27A1'

/-- Check-mark glyph, the primary completion indicator. -/
def checkMarkChar : Char := '\u2705'

/-- Beginner-symbol glyph, the alternate completion indicator treated as
final. -/
def beginnerChar : Char := Char.ofNat 0x1F530

/-- Count of non-overlapping occurrences of the two-character sequence
`a b` in a list, scanning left to right (the semantics of Python
`str.count` for a two-code-point pattern). -/
def countPair (a b : Char) : List Char → Nat
  | [] => 0
  | [_] => 0
  | x :: y :: rest2 =>
    if x = a ∧ y = b then countPair a b rest2 + 1
    else countPair a b (y :: rest2)

/-- Whether the two-character sequence `a b` occurs contiguously in a list
(the semantics of Python `sub in s` for a two-code-point `sub`). -/
def containsPair (a b : Char) : List Char → Bool
  | [] => false
  | x :: rest =>
    match rest with
    | [] => false
    | y :: _ => (x = a ∧ y = b) || containsPair a b rest

/-- Embedding of `normalize_emoji`: replace every occurrence of the
red-heart pair by the heart-suit pair, left to right, non-overlapping
(Python `str.replace`). -/
def normalize_emoji : List Char → List Char
  | [] => []
  | [x] => [x]
  | x :: y :: rest2 =>
    if x = redHeartChar ∧ y = vs16 then
      heartChar :: vs16 :: normalize_emoji rest2
    else
      x :: normalize_emoji (y :: rest2)

/-- Accumulator pass for `extract_parentheses_sections`: when `inside` is
set, `acc` holds (reversed) the characters seen since the opening
parenthesis.  This reproduces the matches of the pattern
`\(([^)]+)\)` under `re.findall`: a group is every maximal run of
non-close-parenthesis characters that starts right after an opening
parenthesis and is terminated by a closing parenthesis, empty runs
excluded, scanning non-overlapping left to right. -/
def parensAux (acc : List Char) (inside : Bool) : List Char → List (List Char)
  | [] => []
  | c :: rest =>
    if inside then
      if c = ')' then
        if acc.isEmpty then parensAux [] false rest
        else acc.reverse :: parensAux [] false rest
      else parensAux (c :: acc) true rest
    else
      if c = '(' then parensAux [] true rest
      else parensAux acc false rest

/-- Embedding of `extract_parentheses_sections`: the contents of the
parenthesized groups of the text, in order. -/
def extract_parentheses_sections (text : List Char) : List (List Char) :=
  parensAux [] false text

/-- Numeric value of a list of ASCII digits (Python `int` on the matched
digit group). -/
def digitsToNat (l : List Char) : Nat :=
  l.foldl (fun acc c => acc * 10 + (c.toNat - '0'.toNat)) 0

/-- Value of the leading digit run of a list, if the list starts with a
digit (the regex fragment `(\d+)` anchored at this position). -/
def leadingNumber : List Char → Option Nat
  | [] => none
  | d :: rest =>
    if d.isDigit then some (digitsToNat ((d :: rest).takeWhile Char.isDigit))
    else none

/-- Attempt of the regex `#[nN]?(\d+)` at a position just after a hash
mark: first try to consume one letter `n`/`N` followed by digits, else
backtrack and require digits immediately. -/
def afterHash : List Char → Option Nat
  | [] => none
  | c :: rest =>
    if ((c = 'n' || c = 'N') && (match rest with | d :: _ => d.isDigit | [] => false) : Bool) then
      leadingNumber rest
    else
      leadingNumber (c :: rest)

/-- Left-to-right scan of `re.search` for the pattern `#[nN]?(\d+)`:
at every hash mark try `afterHash`; the first success wins. -/
def extractGameAux : List Char → Option Nat
  | [] => none
  | c :: rest =>
    if c = '#' then
      match afterHash rest with
      | some n => some n
      | none => extractGameAux rest
    else extractGameAux rest

/-- Embedding of `extract_game_number`: round number of the first token
matching `#[nN]?(\d+)`, if any. -/
def extract_game_number (message : List Char) : Option Nat :=
  extractGameAux message

/-- The four card suits.  The Python source manipulates suit glyph strings;
in the embedding a suit stands for its glyph (base character followed by
variation selector 16), with the red-heart variant already folded to
Heart. -/
inductive Suit
  | spade
  | heart
  | diamond
  | club
deriving DecidableEq, Repr

/-- Base character of a suit's glyph. -/
def suitChar : Suit → Char
  | .spade => spadeChar
  | .heart => heartChar
  | .diamond => diamondChar
  | .club => clubChar

/-- Count of the suit's two-character glyph in a text (Python
`str.count` of the glyph). -/
def countSuit (s : Suit) (text : List Char) : Nat :=
  countPair (suitChar s) vs16 text

/-- Whether the suit's glyph occurs in a text. -/
def suitInText (s : Suit) (text : List Char) : Bool :=
  containsPair (suitChar s) vs16 text

/-- The status values a prediction record takes in the source:
the pending hourglass, the internal waiting-next-round marker, and the
three display statuses for immediate success, delayed success and
failure. -/
inductive PredStatus
  | pending
  | waitingNext
  | confirmedImmediate
  | confirmedDelayed
  | failed
deriving DecidableEq, Repr

/-- Statuses the duplicate-target check of `should_predict` treats as
still open: the literal set `('pending', '⏳', 'waiting_next')` in the
source (the string `'pending'` is never assigned by this code). -/
def isPendingStatus : PredStatus → Bool
  | .pending => true
  | .waitingNext => true
  | _ => false

/-- A prediction record as built by `make_prediction` and mutated by
`verify_prediction` (bookkeeping fields that the control flow never
reads, such as `verification_count`, are kept only where some claim
depends on them). -/
structure PredRecord where
  predicted_costume : Suit
  status : PredStatus
  predicted_from : Nat
  message_id : Option Nat
  chat_id : Option Int
  timestamp : ℤ
  verified : Bool
  verification_game : Option Nat
deriving DecidableEq, Repr

/-- Lookup in an insertion-ordered association list (Python `dict`
indexing / `in`). -/
def lookupKey {α : Type} (k : Nat) : List (Nat × α) → Option α
  | [] => none
  | (k', v) :: rest => if k' = k then some v else lookupKey k rest

/-- Assignment `d[k] = v` on an insertion-ordered association list:
replace in place if the key is present, else append. -/
def setKey {α : Type} (k : Nat) (v : α) : List (Nat × α) → List (Nat × α)
  | [] => [(k, v)]
  | (k', v') :: rest => if k' = k then (k, v) :: rest else (k', v') :: setKey k v rest

/-- Deletion `del d[k]` on an insertion-ordered association list. -/
def eraseKey {α : Type} (k : Nat) : List (Nat × α) → List (Nat × α)
  | [] => []
  | (k', v') :: rest => if k' = k then rest else (k', v') :: eraseKey k rest

/-- Mutable state of a `CardPredictor` instance (the fields the claims
depend on).  Message fingerprints (`hash(message)` in Python, used only
as an equality test on texts) are modelled by the texts themselves.
`sent_predictions` maps a round key to the chat id and message id stored
by the webhook handler. -/
structure PredictorState where
  predictions : List (Nat × PredRecord)
  processed_messages : List (List Char)
  temporary_messages : List (Nat × List Char)
  sent_predictions : List (Nat × Int × Nat)
  last_prediction_time : ℤ
  prediction_cooldown : ℤ
deriving DecidableEq, Repr

/-- Embedding of `_load_last_prediction_time`: the persisted timestamp if
the store is present and readable, `0.0` when the file is absent or any
exception occurs while reading it. -/
def load_last_prediction_time : Option ℤ → ℤ
  | some t => t
  | none => 0

/-- State of a freshly constructed `CardPredictor`, parameterized by the
(possibly unreadable) durable cooldown store. -/
def initState (store : Option ℤ) : PredictorState :=
  { predictions := []
    processed_messages := []
    temporary_messages := []
    sent_predictions := []
    last_prediction_time := load_last_prediction_time store
    prediction_cooldown := 30 }

/-- Embedding of `has_pending_indicators`: any of the four in-progress
glyphs occurs in the text (the arrow indicator is a two-character
sequence). -/
def has_pending_indicators (text : List Char) : Bool :=
  text.contains alarmClockChar || text.contains playChar ||
    text.contains clockFaceChar || containsPair arrowChar vs16 text

/-- Embedding of `has_completion_indicators`: the check mark or the
beginner symbol occurs in the text. -/
def has_completion_indicators (text : List Char) : Bool :=
  text.contains checkMarkChar || text.contains beginnerChar

/-- Mirror partner of a suit (`mirror_map` in the source). -/
def mirrorMap : Suit → Suit
  | .heart => .club
  | .spade => .diamond
  | .diamond => .spade
  | .club => .heart

/-- Iteration order of the `color_counts` dictionary in
`check_mirror_rule`. -/
def suitOrder : List Suit := [.heart, .spade, .diamond, .club]

/-- Embedding of `check_mirror_rule`: normalize the heart variant, count
every suit glyph over the whole message, keep the suits reaching three
occurrences; a unique such suit yields its mirror partner, otherwise no
prediction. -/
def check_mirror_rule (message : List Char) : Option Suit :=
  let normalized := normalize_emoji message
  let candidates := suitOrder.filter (fun c => 3 ≤ countSuit c normalized)
  match candidates with
  | [c] => some (mirrorMap c)
  | _ => none

/-- Embedding of `can_make_prediction`: allowed when no previous
prediction timestamp is recorded (`== 0`) or the elapsed time reaches
the cooldown. -/
def can_make_prediction (last now cooldown : ℤ) : Bool :=
  if last = 0 then true
  else decide (cooldown ≤ now - last)

/-- Embedding of `should_predict` (current wall-clock time passed
explicitly).  Returns the Python triple together with the state after the
call.  The first guard is Python truthiness `if not game_number`, so a
round number equal to zero is rejected exactly like a missing one. -/
def should_predict (s : PredictorState) (now : ℤ) (message : List Char) :
    (Bool × Option Nat × Option Suit) × PredictorState :=
  match extract_game_number message with
  | none => ((false, none, none), s)
  | some game_number =>
    if game_number = 0 then ((false, none, none), s)
    else if containsPair '#' 'R' message then ((false, none, none), s)
    else if containsPair '#' 'X' message then ((false, none, none), s)
    else if has_pending_indicators message && !has_completion_indicators message then
      ((false, none, none),
        { s with temporary_messages := setKey game_number message s.temporary_messages })
    else
      let target_game := game_number + 2
      if (lookupKey target_game s.predictions).elim false (fun r => isPendingStatus r.status) then
        ((false, none, none), s)
      else
        let s1 :=
          if has_completion_indicators message then
            { s with temporary_messages := eraseKey game_number s.temporary_messages }
          else s
        if !can_make_prediction s1.last_prediction_time now s1.prediction_cooldown then
          ((false, none, none), s1)
        else
          match check_mirror_rule message with
          | none => ((false, none, none), s1)
          | some mirror_prediction =>
            if s1.processed_messages.contains message then
              ((false, none, none), s1)
            else
              ((true, some game_number, some mirror_prediction),
                { s1 with processed_messages := message :: s1.processed_messages })

/-- Embedding of `make_prediction`: store a fresh pending record under
`game_number + 2` and stamp the cooldown timestamp (persistence of the
timestamp is the host's storage write and not part of state). -/
def make_prediction (s : PredictorState) (now : ℤ) (game_number : Nat)
    (predicted_costume : Suit) (sent_message_id : Option Nat) (sent_chat_id : Option Int) :
    PredictorState :=
  let target_game := game_number + 2
  { s with
    predictions := setKey target_game
      { predicted_costume := predicted_costume
        status := .pending
        predicted_from := game_number
        message_id := sent_message_id
        chat_id := sent_chat_id
        timestamp := now
        verified := false
        verification_game := none } s.predictions
    last_prediction_time := now }

/-- Embedding of `check_costume_in_first_parentheses`: the predicted
suit's glyph occurs in the first parenthesized group of the normalized
message (false when the message has no group). -/
def check_costume_in_first_parentheses (message : List Char) (predicted_costume : Suit) :
    Bool :=
  match extract_parentheses_sections (normalize_emoji message) with
  | [] => false
  | first_content :: _ => suitInText predicted_costume first_content

/-- The `for target_game, rec in list(self.predictions.items())` loop of
`verify_prediction`: find the first record whose status is the
waiting-next marker and whose target precedes the incoming round by one;
update it according to the presence of the predicted suit in the first
group and return it together with the updated ledger. -/
def verifyScan (game_number : Nat) (message : List Char) :
    List (Nat × PredRecord) → Option PredRecord × List (Nat × PredRecord)
  | [] => (none, [])
  | (target_game, rec) :: rest =>
    if rec.status = .waitingNext ∧ target_game + 1 = game_number then
      let rec' :=
        if check_costume_in_first_parentheses message rec.predicted_costume then
          { rec with status := .confirmedDelayed, verified := true,
                     verification_game := some game_number }
        else
          { rec with status := .failed, verified := true,
                     verification_game := some game_number }
      (some rec', (target_game, rec') :: rest)
    else
      let (res, rest') := verifyScan game_number message rest
      (res, (target_game, rec) :: rest')

/-- Embedding of `verify_prediction` (the source text mis-indents the
debug logging line of the non-final early return; the embedding follows
the obvious intent of skipping non-finalized messages).  A message whose
round number is a stored target re-runs the immediate check on that
record whatever its current status; otherwise the first record waiting
on the previous round is settled as delayed success or failure. -/
def verify_prediction (s : PredictorState) (message : List Char) :
    Option PredRecord × PredictorState :=
  if !has_completion_indicators message then (none, s)
  else
    match extract_game_number message with
    | none => (none, s)
    | some game_number =>
      match lookupKey game_number s.predictions with
      | some rec =>
        let rec' :=
          if check_costume_in_first_parentheses message rec.predicted_costume then
            { rec with status := .confirmedImmediate, verified := true,
                       verification_game := some game_number }
          else
            { rec with status := .waitingNext }
        (some rec', { s with predictions := setKey game_number rec' s.predictions })
      | none =>
        let (res, preds') := verifyScan game_number message s.predictions
        (res, { s with predictions := preds' })

/-- The prediction channel constant of `card_predictor.py`. -/
def PREDICTION_CHANNEL_ID : Int := -1002646551216

/-- Embedding of `process_incoming_telegram_message`, with the Telegram
send abstracted by `sendResult` (the message id returned by a successful
`bot.send_message`, `none` when the send raises).  The first component of
the result is the `made_prediction` target: `some` exactly when a record
was created and a publish was attempted. -/
def process_incoming (s : PredictorState) (now : ℤ) (message : List Char)
    (sendResult : Option Nat) : (Option Nat × Option PredRecord) × PredictorState :=
  let ((should, base_game, predicted_costume), s1) := should_predict s now message
  let (made, s2) :=
    match should, base_game, predicted_costume with
    | true, some g, some c =>
      if g = 0 then (none, s1)
      else
        let target_game := g + 2
        let s' := make_prediction s1 now g c none (some PREDICTION_CHANNEL_ID)
        match sendResult with
        | some message_id =>
          (some target_game,
            { s' with predictions :=
                match lookupKey target_game s'.predictions with
                | some rec =>
                  setKey target_game
                    { rec with message_id := some message_id,
                               chat_id := some PREDICTION_CHANNEL_ID } s'.predictions
                | none => s'.predictions })
        | none => (none, s')
    | _, _, _ => (none, s1)
  let (verified, s3) := verify_prediction s2 message
  ((made, verified), s3)

/-- Embedding of the prediction branch of
`TelegramHandlers._handle_edited_message` (`handlers.py`) for a message
from the authorized channel: on a finalized text it runs
`should_predict`, creates the record through `make_prediction`, and when
the send succeeds stores the publish handle in `sent_predictions` under
the key `game_number + 1` computed at line 307 of `handlers.py`.  The
subsequent verification step of the handler calls
`_verify_prediction_common`, a method `CardPredictor` does not define, so
it raises `AttributeError` and the surrounding `except` block ends the
handler with the state below. -/
def handle_edited_message (s : PredictorState) (now : ℤ) (message : List Char)
    (target_channel : Int) (sendResult : Option Nat) : PredictorState :=
  if !has_completion_indicators message then s
  else
    let ((should, base_game, predicted_costume), s1) := should_predict s now message
    match should, base_game, predicted_costume with
    | true, some g, some c =>
      let s2 := make_prediction s1 now g c none none
      match sendResult with
      | some message_id =>
        { s2 with sent_predictions :=
            setKey (g + 1) (target_channel, message_id) s2.sent_predictions }
      | none => s2
    | _, _, _ => s1

lemma lookup_setKey_self {α : Type} (k : Nat) (v : α) (l : List (Nat × α)) :
    lookupKey k (setKey k v l) = some v := by
  induction l with
  | nil => simp [setKey, lookupKey]
  | cons hd tl ih =>
    obtain ⟨k', v'⟩ := hd
    by_cases h : k' = k <;> simp [setKey, lookupKey, h, ih]

lemma lookup_setKey_ne {α : Type} {k k' : Nat} (h : k' ≠ k) (v : α) (l : List (Nat × α)) :
    lookupKey k (setKey k' v l) = lookupKey k l := by
  induction l with
  | nil => simp [setKey, lookupKey, h]
  | cons hd tl ih =>
    obtain ⟨k'', v''⟩ := hd
    by_cases h2 : k'' = k' <;> by_cases h3 : k'' = k <;>
      simp_all [setKey, lookupKey]

lemma setKey_keys_mem {α : Type} {k x : Nat} {v : α} {l : List (Nat × α)}
    (hx : x ∈ (setKey k v l).map Prod.fst) : x = k ∨ x ∈ l.map Prod.fst := by
  induction l with
  | nil =>
    simp only [setKey, List.map_cons, List.map_nil, List.mem_singleton] at hx
    exact Or.inl hx
  | cons hd tl ih =>
    obtain ⟨k', v'⟩ := hd
    by_cases h : k' = k
    · subst h
      simp only [setKey, if_pos] at hx
      simp only [List.map_cons, List.mem_cons] at hx ⊢
      tauto
    · simp only [setKey, if_neg h, List.map_cons, List.mem_cons] at hx ⊢
      rcases hx with hx | hx
      · tauto
      · rcases ih hx with h1 | h1 <;> tauto

lemma setKey_keys_nodup {α : Type} (k : Nat) (v : α) (l : List (Nat × α))
    (h : (l.map Prod.fst).Nodup) : ((setKey k v l).map Prod.fst).Nodup := by
  induction l with
  | nil => simp [setKey]
  | cons hd tl ih =>
    obtain ⟨k', v'⟩ := hd
    simp only [List.map_cons, List.nodup_cons] at h
    by_cases hk : k' = k
    · subst hk; simpa [setKey] using h
    · simp only [setKey, if_neg hk, List.map_cons, List.nodup_cons]
      refine ⟨fun hmem => ?_, ih h.2⟩
      rcases setKey_keys_mem hmem with h1 | h1
      · exact hk h1
      · exact h.1 h1

lemma setKey_keys_of_mem {α : Type} {k : Nat} {r : α} (v : α) (l : List (Nat × α))
    (h : lookupKey k l = some r) : (setKey k v l).map Prod.fst = l.map Prod.fst := by
  induction l with
  | nil => simp [lookupKey] at h
  | cons hd tl ih =>
    obtain ⟨k', v'⟩ := hd
    by_cases hk : k' = k <;> simp_all [setKey, lookupKey]

lemma verifyScan_keys (g : Nat) (m : List Char) (l : List (Nat × PredRecord)) :
    ((verifyScan g m l).2).map Prod.fst = l.map Prod.fst := by
  induction l with
  | nil => simp [verifyScan]
  | cons hd tl ih =>
    obtain ⟨k, r⟩ := hd
    by_cases h : r.status = PredStatus.waitingNext ∧ k + 1 = g <;>
      simp [verifyScan, h, ih]

lemma verifyScan_lookup_not_waiting {k g : Nat} {r : PredRecord} {m : List Char}
    {l : List (Nat × PredRecord)} (h : lookupKey k l = some r)
    (hw : r.status ≠ PredStatus.waitingNext) :
    lookupKey k (verifyScan g m l).2 = some r := by
  induction l with
  | nil => simp [lookupKey] at h
  | cons hd tl ih =>
    obtain ⟨k', r'⟩ := hd
    by_cases hc : r'.status = PredStatus.waitingNext ∧ k' + 1 = g
    · by_cases hk : k' = k
      · subst hk
        simp only [lookupKey, if_pos rfl] at h
        injection h with h
        exact absurd (h ▸ hc.1) hw
      · simp only [lookupKey, if_neg hk] at h
        simp only [verifyScan, if_pos hc]
        simpa [lookupKey, hk] using h
    · by_cases hk : k' = k
      · subst hk
        simp only [lookupKey, if_pos rfl] at h
        injection h with h
        subst h
        simp [verifyScan, hc, lookupKey]
      · simp only [lookupKey, if_neg hk] at h
        simp only [verifyScan, if_neg hc]
        simpa [lookupKey, hk] using ih h

lemma verifyScan_lookup_ne {k g : Nat} (m : List Char)
    (l : List (Nat × PredRecord)) (h : k + 1 ≠ g) :
    lookupKey k (verifyScan g m l).2 = lookupKey k l := by
  induction l with
  | nil => simp [verifyScan]
  | cons hd tl ih =>
    obtain ⟨k', r'⟩ := hd
    by_cases hc : r'.status = PredStatus.waitingNext ∧ k' + 1 = g
    · have hk : k' ≠ k := fun he => h (he ▸ hc.2)
      simp [verifyScan, hc, lookupKey, hk]
    · simp [verifyScan, hc, lookupKey, ih]

/-- The record `verifyScan` writes when it settles a waiting record. -/
def settledRecord (rec : PredRecord) (g : Nat) (m : List Char) : PredRecord :=
  if check_costume_in_first_parentheses m rec.predicted_costume then
    { rec with status := .confirmedDelayed, verified := true, verification_game := some g }
  else
    { rec with status := .failed, verified := true, verification_game := some g }

lemma verifyScan_settles {T : Nat} {rec : PredRecord} {m : List Char}
    {l : List (Nat × PredRecord)} (h : lookupKey T l = some rec)
    (hw : rec.status = PredStatus.waitingNext) :
    (verifyScan (T + 1) m l).1 = some (settledRecord rec (T + 1) m) ∧
      lookupKey T (verifyScan (T + 1) m l).2 = some (settledRecord rec (T + 1) m) := by
  induction l with
  | nil => simp [lookupKey] at h
  | cons hd tl ih =>
    obtain ⟨k', r'⟩ := hd
    by_cases hk : k' = T
    · subst hk
      simp only [lookupKey, if_pos rfl] at h
      injection h with h
      subst h
      have hc : r'.status = PredStatus.waitingNext ∧ k' + 1 = k' + 1 := ⟨hw, rfl⟩
      by_cases hp : check_costume_in_first_parentheses m r'.predicted_costume <;>
        simp [verifyScan, hc, hp, lookupKey, settledRecord]
    · simp only [lookupKey, if_neg hk] at h
      have hc : ¬(r'.status = PredStatus.waitingNext ∧ k' + 1 = T + 1) := by
        rintro ⟨-, h2⟩; exact hk (by omega)
      obtain ⟨ih1, ih2⟩ := ih h
      simp only [verifyScan, if_neg hc]
      constructor
      · simpa using ih1
      · simpa [lookupKey, hk] using ih2

/-- Case split over the four suits, for the uniqueness arguments below. -/
lemma exists_suit_iff (Q : Suit → Prop) :
    (∃ c, Q c) ↔ Q .heart ∨ Q .spade ∨ Q .diamond ∨ Q .club := by
  constructor
  · rintro ⟨c, hc⟩; cases c <;> tauto
  · rintro (h | h | h | h) <;> exact ⟨_, h⟩

lemma forall_suit_iff (R : Suit → Prop) :
    (∀ c, R c) ↔ R .heart ∧ R .spade ∧ R .diamond ∧ R .club := by
  constructor
  · intro h; exact ⟨h _, h _, h _, h _⟩
  · rintro ⟨h1, h2, h3, h4⟩ c; cases c <;> assumption

/-- A record whose status is one of the three display statuses is not in
the internal waiting condition. -/
lemma not_waiting_of_not_pending {st : PredStatus} (h : isPendingStatus st = false) :
    st ≠ PredStatus.waitingNext := by
  cases st <;> simp_all [isPendingStatus]

/-- `should_predict` never mutates the prediction ledger. -/
lemma should_predict_predictions (s : PredictorState) (now : ℤ) (message : List Char) :
    ((should_predict s now message).2).predictions = s.predictions := by
  unfold should_predict
  repeat' first | split | dsimp only

/-- `should_predict` never mutates the cooldown timestamp. -/
lemma should_predict_time (s : PredictorState) (now : ℤ) (message : List Char) :
    ((should_predict s now message).2).last_prediction_time = s.last_prediction_time := by
  unfold should_predict
  repeat' first | split | dsimp only

/-- The duplicate-target guard: a pending or waiting record stored under
the incoming round's target forces a negative decision. -/
lemma should_predict_blocked {s : PredictorState} {now : ℤ} {message : List Char}
    {g : Nat} {r : PredRecord}
    (hg : extract_game_number message = some g)
    (hr : lookupKey (g + 2) s.predictions = some r)
    (hp : isPendingStatus r.status = true) :
    (should_predict s now message).1.1 = false := by
  unfold should_predict
  rw [hg]
  repeat' first | split | dsimp only
  all_goals simp_all [hr, hp]

/-- `verify_prediction` never adds or removes ledger keys. -/
lemma verify_prediction_keys (s : PredictorState) (message : List Char) :
    (((verify_prediction s message).2).predictions).map Prod.fst =
      s.predictions.map Prod.fst := by
  unfold verify_prediction
  cases hcomp : has_completion_indicators message
  · rfl
  · simp only [Bool.not_true, Bool.false_eq_true, if_false]
    cases hx : extract_game_number message
    · rfl
    · rename_i g
      cases hl : lookupKey g s.predictions
      · simp only [hl]
        simp [verifyScan_keys]
      · rename_i rec
        simp only [hl]
        split_ifs <;> exact setKey_keys_of_mem _ _ hl

/-- A ledger key that is neither the incoming round nor one below it is
untouched by `verify_prediction`. -/
lemma verify_lookup_far {s : PredictorState} {message : List Char} {k : Nat}
    (h : ∀ g, extract_game_number message = some g → g ≠ k ∧ k + 1 ≠ g) :
    lookupKey k (((verify_prediction s message).2).predictions) =
      lookupKey k s.predictions := by
  unfold verify_prediction
  cases hcomp : has_completion_indicators message
  · rfl
  · simp only [Bool.not_true, Bool.false_eq_true, if_false]
    cases hx : extract_game_number message
    · rfl
    · rename_i g
      obtain ⟨hgk, hk1⟩ := h _ hx
      cases hl : lookupKey g s.predictions
      · simp only [hl]
        simp [verifyScan_lookup_ne _ _ hk1]
      · simp only [hl]
        split_ifs <;> exact lookup_setKey_ne hgk _ _

/-- Finalized report of round 744 whose whole text shows four spades, one
heart: text `#744 (2♠9♥) (5♠3♠7♠) ✅` with every suit glyph written as
base character plus variation selector. -/
def wm744 : List Char :=
  ['#', '7', '4', '4', ' ', '(', '2', spadeChar, vs16, '9', heartChar, vs16, ')',
   ' ', '(', '5', spadeChar, vs16, '3', spadeChar, vs16, '7', spadeChar, vs16, ')',
   ' ', checkMarkChar]

/-- Finalized report of round 746 whose first group contains a diamond. -/
def wm746ok : List Char :=
  ['#', '7', '4', '6', ' ', '(', diamondChar, vs16, '2', heartChar, vs16, ')', ' ', checkMarkChar]

/-- Finalized report of round 746 whose first group lacks a diamond. -/
def wm746bad : List Char :=
  ['#', '7', '4', '6', ' ', '(', clubChar, vs16, '2', spadeChar, vs16, ')', ' ', checkMarkChar]

/-- Finalized report of round 747 whose first group contains a diamond. -/
def wm747diamond : List Char :=
  ['#', '7', '4', '7', ' ', '(', diamondChar, vs16, ')', ' ', checkMarkChar]

/-- Finalized report of round 747 whose first group lacks a diamond. -/
def wm747bad : List Char :=
  ['#', '7', '4', '7', ' ', '(', '2', heartChar, vs16, ')', ' ', checkMarkChar]

/-- Report of round 5 with three spades and no completion or pending
indicator at all. -/
def wm5bare : List Char :=
  ['#', '5', ' ', '(', '2', spadeChar, vs16, '3', spadeChar, vs16, '4', spadeChar, vs16, ')']

/-- Finalized message whose round token is `#0`. -/
def wm0 : List Char := ['#', '0', ' ', checkMarkChar]

/-- Text whose only hash token carries the letter R: `#R744`. -/
def wmR744 : List Char := ['#', 'R', '7', '4', '4']

/-- Record predicting a diamond for target 746, in the internal
waiting-next-round condition. -/
def waitingRec746 : PredRecord :=
  { predicted_costume := .diamond, status := .waitingNext, predicted_from := 744,
    message_id := none, chat_id := none, timestamp := 0, verified := false,
    verification_game := none }

/-- Record predicting a club for target 747, still pending. -/
def pendingRec747 : PredRecord :=
  { predicted_costume := .club, status := .pending, predicted_from := 745,
    message_id := none, chat_id := none, timestamp := 0, verified := false,
    verification_game := none }

/-- Record for target 746 already settled as failed. -/
def failedRec746 : PredRecord :=
  { predicted_costume := .diamond, status := .failed, predicted_from := 744,
    message_id := none, chat_id := none, timestamp := 0, verified := true,
    verification_game := some 747 }

/-- Record predicting a diamond for target 7, still pending. -/
def pendingRec7 : PredRecord :=
  { predicted_costume := .diamond, status := .pending, predicted_from := 5,
    message_id := none, chat_id := none, timestamp := 0, verified := false,
    verification_game := none }

/-- Ledger holding a waiting record for 746 and a pending record for 747. -/
def shadowState : PredictorState :=
  { initState none with predictions := [(746, waitingRec746), (747, pendingRec747)] }

/-- Ledger holding only the waiting record for 746. -/
def waitState : PredictorState :=
  { initState none with predictions := [(746, waitingRec746)] }

/-- Ledger holding only the settled (failed) record for 746. -/
def failedState : PredictorState :=
  { initState none with predictions := [(746, failedRec746)] }

/-- Ledger holding only the pending record for 7. -/
def pendState : PredictorState :=
  { initState none with predictions := [(7, pendingRec7)] }

/-- C1: the mirror heuristic returns a suit exactly when, after
heart-variant normalization, exactly one of the four suit glyphs occurs
at least three times in the entire message, and then it returns that
suit's fixed mirror partner (Heart and Club exchanged, Spade and Diamond
exchanged); with zero or several suits at the threshold it returns
nothing. -/
theorem mirror_rule_unique_majority :
    (∀ (message : List Char) (s : Suit),
        check_mirror_rule message = some s ↔
          ∃ c : Suit, 3 ≤ countSuit c (normalize_emoji message) ∧
            (∀ c' : Suit, 3 ≤ countSuit c' (normalize_emoji message) → c' = c) ∧
            s = mirrorMap c) ∧
      mirrorMap .heart = .club ∧ mirrorMap .club = .heart ∧
      mirrorMap .spade = .diamond ∧ mirrorMap .diamond = .spade := by
  refine ⟨fun message s => ?_, rfl, rfl, rfl, rfl⟩
  unfold check_mirror_rule
  simp only [exists_suit_iff, forall_suit_iff]
  by_cases h1 : 3 ≤ countSuit .heart (normalize_emoji message) <;>
    by_cases h2 : 3 ≤ countSuit .spade (normalize_emoji message) <;>
      by_cases h3 : 3 ≤ countSuit .diamond (normalize_emoji message) <;>
        by_cases h4 : 3 ≤ countSuit .club (normalize_emoji message) <;>
          simp [suitOrder, h1, h2, h3, h4] <;> tauto

/-- C5 fails on the code: a message with three spades, a round token, and
no completion indicator (nor any pending indicator) still gets a positive
decision from `should_predict`, because the finalized-only gate announced
by its docstring is never enforced. -/
theorem bare_message_still_predicts :
    has_completion_indicators wm5bare = false ∧
      has_pending_indicators wm5bare = false ∧
      (should_predict (initState none) 100 wm5bare).1 =
        (true, some 5, some Suit.diamond) := by decide

/-- C6 fails on the code: processing the finalized round-744 report
through the webhook handler creates the record under target 746 (with no
publish handle on the record), while the publish handle of the sent
message is stored under key 745, so no handle is retrievable for the
announced target 746. -/
theorem publish_handle_stored_under_wrong_round :
    ((lookupKey 746 (handle_edited_message (initState none) 100 wm744
          PREDICTION_CHANNEL_ID (some 55)).predictions).map
        (fun r => (r.status, r.predicted_from, r.message_id)))
        = some (PredStatus.pending, 744, none) ∧
      lookupKey 746 (handle_edited_message (initState none) 100 wm744
          PREDICTION_CHANNEL_ID (some 55)).sent_predictions = none ∧
      lookupKey 745 (handle_edited_message (initState none) 100 wm744
          PREDICTION_CHANNEL_ID (some 55)).sent_predictions =
        some (PREDICTION_CHANNEL_ID, 55) := by decide

/-- C7: the cooldown gate allows a prediction exactly when no prior
timestamp is recorded or the elapsed time reaches the configured
cooldown, and an unreadable durable store loads as the unset value, so
the gate fails open. -/
theorem cooldown_gate_fails_open :
    (∀ last now cooldown : ℤ,
        can_make_prediction last now cooldown = true ↔
          last = 0 ∨ cooldown ≤ now - last) ∧
      load_last_prediction_time none = 0 ∧
      ∀ now cooldown : ℤ,
        can_make_prediction (load_last_prediction_time none) now cooldown = true := by
  refine ⟨fun last now cooldown => ?_, rfl, fun now cooldown => ?_⟩
  · unfold can_make_prediction
    split_ifs with h <;> simp [h]
  · simp [load_last_prediction_time, can_make_prediction]

/-- C10: a message whose extracted round number is zero is rejected by
`should_predict` exactly as if no round number were present, with the
state unchanged, because of the Python truthiness test on the extracted
number. -/
theorem round_zero_rejected (s : PredictorState) (now : ℤ) (message : List Char)
    (h : extract_game_number message = some 0) :
    should_predict s now message = ((false, none, none), s) := by
  unfold should_predict
  rw [h]
  rfl

/-- Witness for the round-zero claim at the concrete text `#0 ✅`. -/
theorem round_zero_rejected_witness :
    extract_game_number wm0 = some 0 ∧
      should_predict (initState none) 100 wm0 = ((false, none, none), initState none) :=
  ⟨by decide, round_zero_rejected (initState none) 100 wm0 (by decide)⟩

/-- C2 is refuted when the incoming round number is itself a stored
target: with a waiting record for 746 (predicting a diamond) and a
pending record for 747, the finalized round-747 report whose first group
contains the diamond leaves record 746 waiting instead of confirming it
delayed, because the ledger-membership branch on 747 shadows the
delayed check. -/
theorem delayed_check_shadowed_by_other_target :
    has_completion_indicators wm747diamond = true ∧
      extract_game_number wm747diamond = some 747 ∧
      ((lookupKey 746 shadowState.predictions).map
          (fun r => (r.status, r.predicted_costume)))
        = some (PredStatus.waitingNext, Suit.diamond) ∧
      check_costume_in_first_parentheses wm747diamond Suit.diamond = true ∧
      ((lookupKey 746 ((verify_prediction shadowState wm747diamond).2).predictions).map
          (fun r => r.status))
        = some PredStatus.waitingNext := by decide

/-- C2 (amended): on a finalized message whose round equals a stored
target, `verify_prediction` confirms immediately or moves the record to
the waiting condition according to the first parenthesized group; and on
a finalized message one round past a waiting record's target, provided
the incoming round is not itself a stored target, the record is settled
as delayed success or failure. -/
theorem verify_prediction_status_updates :
    (∀ (s : PredictorState) (message : List Char) (T : Nat) (rec : PredRecord),
        has_completion_indicators message = true →
        extract_game_number message = some T →
        lookupKey T s.predictions = some rec →
        ∃ rec', (verify_prediction s message).1 = some rec' ∧
          lookupKey T ((verify_prediction s message).2).predictions = some rec' ∧
          rec'.status =
            (if check_costume_in_first_parentheses message rec.predicted_costume
              then PredStatus.confirmedImmediate else PredStatus.waitingNext)) ∧
    (∀ (s : PredictorState) (message : List Char) (T : Nat) (rec : PredRecord),
        has_completion_indicators message = true →
        extract_game_number message = some (T + 1) →
        lookupKey (T + 1) s.predictions = none →
        lookupKey T s.predictions = some rec →
        rec.status = PredStatus.waitingNext →
        ∃ rec', (verify_prediction s message).1 = some rec' ∧
          lookupKey T ((verify_prediction s message).2).predictions = some rec' ∧
          rec'.status =
            (if check_costume_in_first_parentheses message rec.predicted_costume
              then PredStatus.confirmedDelayed else PredStatus.failed)) := by
  constructor
  · intro s message T rec hcomp hx hl
    unfold verify_prediction
    rw [hcomp, hx]
    simp only [hl]
    by_cases hp : check_costume_in_first_parentheses message rec.predicted_costume <;>
      simp [hp, lookup_setKey_self]
  · intro s message T rec hcomp hx hnone hl hw
    unfold verify_prediction
    rw [hcomp, hx]
    simp only [hnone]
    obtain ⟨h1, h2⟩ := verifyScan_settles (m := message) hl hw
    refine ⟨settledRecord rec (T + 1) message, ?_, ?_, ?_⟩
    · simpa using h1
    · simpa using h2
    · by_cases hp : check_costume_in_first_parentheses message rec.predicted_costume <;>
        simp [settledRecord, hp]

/-- Witness applying both parts of the amended verification theorem: the
round-746 report confirms the waiting record for 746 immediately, and on
a ledger holding only the waiting record for 746 the round-747 report
settles the record as delayed success. -/
theorem verify_prediction_status_updates_witness :
    (∃ rec', (verify_prediction shadowState wm746ok).1 = some rec' ∧
        lookupKey 746 ((verify_prediction shadowState wm746ok).2).predictions = some rec' ∧
        rec'.status =
          (if check_costume_in_first_parentheses wm746ok waitingRec746.predicted_costume
            then PredStatus.confirmedImmediate else PredStatus.waitingNext)) ∧
    (∃ rec', (verify_prediction waitState wm747diamond).1 = some rec' ∧
        lookupKey 746 ((verify_prediction waitState wm747diamond).2).predictions = some rec' ∧
        rec'.status =
          (if check_costume_in_first_parentheses wm747diamond waitingRec746.predicted_costume
            then PredStatus.confirmedDelayed else PredStatus.failed)) :=
  ⟨verify_prediction_status_updates.1 shadowState wm746ok 746 waitingRec746
      (by decide) (by decide) (by decide),
    verify_prediction_status_updates.2 waitState wm747diamond 746 waitingRec746
      (by decide) (by decide) (by decide) (by decide) (by decide)⟩

/-- State after processing the finalized round-744 report from a fresh
predictor: a pending prediction for 746 exists. -/
def chainState744 : PredictorState :=
  (process_incoming (initState none) 100 wm744 (some 55)).2

/-- State after additionally processing the round-746 report containing
the predicted diamond: record 746 is confirmed immediately. -/
def chainState746 : PredictorState :=
  (process_incoming chainState744 200 wm746ok none).2

/-- State after additionally processing a second finalized round-746
report lacking the diamond (a later edit of the same round). -/
def chainState746b : PredictorState :=
  (process_incoming chainState746 300 wm746bad none).2

/-- C3 is refuted: a record that reached the terminal status of immediate
confirmation regresses to the waiting condition when a further finalized
report of its own target round lacks the predicted suit, in a run fully
reachable from the initial state. -/
theorem confirmed_record_regresses :
    ((lookupKey 746 chainState744.predictions).map (fun r => r.status))
        = some PredStatus.pending ∧
      ((lookupKey 746 chainState746.predictions).map (fun r => r.status))
        = some PredStatus.confirmedImmediate ∧
      ((lookupKey 746 chainState746b.predictions).map (fun r => r.status))
        = some PredStatus.waitingNext := by decide

/-- C3 (amended): a record in one of the three display statuses is left
untouched by `verify_prediction` for every message whose extracted round
number differs from the record's target; only a message carrying the
target's own round number can overwrite a settled status. -/
theorem terminal_preserved_for_other_rounds
    (s : PredictorState) (message : List Char) (tg : Nat) (rec : PredRecord)
    (hrec : lookupKey tg s.predictions = some rec)
    (hterm : isPendingStatus rec.status = false)
    (hne : extract_game_number message ≠ some tg) :
    lookupKey tg (((verify_prediction s message).2).predictions) = some rec := by
  unfold verify_prediction
  cases hcomp : has_completion_indicators message
  · exact hrec
  · simp only [Bool.not_true, Bool.false_eq_true, if_false]
    cases hx : extract_game_number message
    · exact hrec
    · rename_i g
      have hgk : g ≠ tg := fun he => hne (he ▸ hx)
      cases hl : lookupKey g s.predictions
      · simp only [hl]
        exact verifyScan_lookup_not_waiting hrec (not_waiting_of_not_pending hterm)
      · simp only [hl]
        split_ifs <;> simpa [lookup_setKey_ne hgk] using hrec

/-- Witness for the amended terminality theorem: the settled (failed)
record for 746 survives the finalized round-747 report. -/
theorem terminal_preserved_for_other_rounds_witness :
    lookupKey 746 (((verify_prediction failedState wm747diamond).2).predictions)
      = some failedRec746 :=
  terminal_preserved_for_other_rounds failedState wm747diamond 746 failedRec746
    (by decide) (by decide) (by decide)

/-- Python truthiness on the extracted round number: round zero is
rejected outright, with no state change. -/
lemma should_predict_zero {s : PredictorState} {now : ℤ} {message : List Char}
    (h : extract_game_number message = some 0) :
    should_predict s now message = ((false, none, none), s) := by
  unfold should_predict
  rw [h]
  rfl

/-- Inversion of a positive decision: `should_predict` answers true only
with the extracted round number and a mirror suit, and only when the
round number is positive. -/
lemma should_predict_pos_inv {s : PredictorState} {now : ℤ} {message : List Char}
    {bg : Option Nat} {pc : Option Suit} {s1 : PredictorState}
    (hsp : should_predict s now message = ((true, bg, pc), s1)) :
    ∃ g c, bg = some g ∧ pc = some c ∧ extract_game_number message = some g ∧ g ≠ 0 := by
  cases hx : extract_game_number message
  · rw [should_predict] at hsp
    rw [hx] at hsp
    exact absurd (congrArg (fun p => p.1.1) hsp) (by simp)
  · rename_i g
    by_cases hg0 : g = 0
    · subst hg0
      rw [should_predict_zero hx] at hsp
      exact absurd (congrArg (fun p => p.1.1) hsp) (by simp)
    · refine ⟨g, ?_⟩
      rw [should_predict] at hsp
      rw [hx] at hsp
      dsimp only at hsp
      repeat' first | (split at hsp) | (dsimp only at hsp)
      all_goals simp only [Prod.mk.injEq, Bool.false_eq_true, false_and, and_false] at hsp
      all_goals obtain ⟨⟨-, hbg, hpc⟩, -⟩ := hsp
      all_goals exact ⟨_, hbg.symm, hpc.symm, rfl, hg0⟩

/-- A negative decision makes `process_incoming` publish nothing and
leave the ledger keys unchanged. -/
lemma process_made_none {s : PredictorState} {now : ℤ} {message : List Char}
    {sr : Option Nat} (h : (should_predict s now message).1.1 = false) :
    (process_incoming s now message sr).1.1 = none ∧
      ((process_incoming s now message sr).2).predictions.map Prod.fst
        = s.predictions.map Prod.fst := by
  rcases hsp : should_predict s now message with ⟨⟨sb, bg, pc⟩, s1⟩
  have hsb : sb = false := by rw [hsp] at h; exact h
  subst hsb
  unfold process_incoming
  rw [hsp]
  dsimp only
  constructor
  · cases bg <;> cases pc <;> rfl
  · have h1 := verify_prediction_keys s1 message
    have h2 := should_predict_predictions s now message
    rw [hsp] at h2
    cases bg <;> cases pc <;>
      simpa [h1] using congrArg (List.map Prod.fst) h2

/-- C8: once a first processing of a message has created a prediction
(the decision component of `should_predict` was positive), reprocessing
the byte-identical text in the resulting state yields a negative
decision, publishes nothing, and leaves the ledger keys unchanged,
whatever the send outcomes and processing times: the freshly created
pending record under the target blocks the duplicate. -/
theorem duplicate_message_publishes_once
    (s : PredictorState) (now now' : ℤ) (message : List Char) (sr sr' : Option Nat)
    (h : (should_predict s now message).1.1 = true) :
    (should_predict ((process_incoming s now message sr).2) now' message).1.1 = false ∧
      (process_incoming ((process_incoming s now message sr).2) now' message sr').1.1
        = none ∧
      ((process_incoming ((process_incoming s now message sr).2) now' message sr').2).predictions.map Prod.fst
        = ((process_incoming s now message sr).2).predictions.map Prod.fst := by
  rcases hsp : should_predict s now message with ⟨⟨sb, bg, pc⟩, s1⟩
  have hsb : sb = true := by rw [hsp] at h; exact h
  subst hsb
  obtain ⟨g, c, hbg, hpc, hx, hg0⟩ := should_predict_pos_inv hsp
  subst hbg
  subst hpc
  have key1 : ∃ r, lookupKey (g + 2)
      ((process_incoming s now message sr).2).predictions = some r ∧
      isPendingStatus r.status = true := by
    unfold process_incoming
    rw [hsp]
    dsimp only
    rw [if_neg hg0]
    have hfar : ∀ s2 : PredictorState,
        lookupKey (g + 2) (((verify_prediction s2 message).2).predictions)
          = lookupKey (g + 2) s2.predictions := by
      intro s2
      refine verify_lookup_far (fun g' hgx => ?_)
      rw [hx] at hgx
      injection hgx with hgx
      omega
    cases sr with
    | none =>
      dsimp only
      rw [hfar]
      unfold make_prediction
      dsimp only
      exact ⟨_, lookup_setKey_self _ _ _, rfl⟩
    | some mid =>
      dsimp only
      rw [hfar]
      unfold make_prediction
      dsimp only
      rw [lookup_setKey_self]
      dsimp only
      exact ⟨_, lookup_setKey_self _ _ _, rfl⟩
  obtain ⟨r1, hr1, hp1⟩ := key1
  have hblock : (should_predict ((process_incoming s now message sr).2) now' message).1.1
      = false := should_predict_blocked hx hr1 hp1
  exact ⟨hblock, (process_made_none hblock).1, (process_made_none hblock).2⟩

/-- Witness for the duplicate-processing theorem on the concrete
round-744 report processed twice from a fresh state. -/
theorem duplicate_message_publishes_once_witness :
    (should_predict ((process_incoming (initState none) 100 wm744 (some 55)).2)
        101 wm744).1.1 = false ∧
      (process_incoming ((process_incoming (initState none) 100 wm744 (some 55)).2)
          101 wm744 (some 56)).1.1 = none ∧
      ((process_incoming ((process_incoming (initState none) 100 wm744 (some 55)).2)
          101 wm744 (some 56)).2).predictions.map Prod.fst
        = ((process_incoming (initState none) 100 wm744 (some 55)).2).predictions.map
            Prod.fst :=
  duplicate_message_publishes_once (initState none) 100 101 wm744 (some 55) (some 56)
    (by decide)

/-- Reading of the claim's token grammar at a single position: hash mark,
optional single letter (any letter, as the claim words it), digits.
Stated only to exhibit the counterexample; the source restricts the
optional letter to `n` or `N`. -/
def claimTokenAt : List Char → Option Nat
  | [] => none
  | c :: rest =>
    if c = '#' then
      match rest with
      | [] => none
      | c2 :: rest2 =>
        if c2.isAlpha then
          match rest2 with
          | d :: _ =>
            if d.isDigit then some (digitsToNat (rest2.takeWhile Char.isDigit))
            else none
          | [] => none
        else leadingNumber rest
    else none

/-- First match of the claim's token grammar over all positions of the
text. -/
def claimExtract (l : List Char) : Option Nat :=
  (List.range l.length).findSome? (fun i => claimTokenAt (l.drop i))

/-- C9 fails on the code: the text `#R744` carries a token of the claim's
form (hash mark, single letter R, digits 744), yet the code's extractor
returns nothing, because the regex admits only the letters n and N. -/
theorem letter_r_token_not_extracted :
    extract_game_number wmR744 = none ∧ claimExtract wmR744 = some 744 := by decide

/-- Token grammar of the source's regex at a single position: hash mark,
optionally the letter `n` or `N`, then digits, valued as the digit run's
integer. -/
def specTokenAt : List Char → Option Nat
  | [] => none
  | c :: rest =>
    if c = '#' then
      match rest with
      | [] => none
      | c2 :: rest2 =>
        if c2 = 'n' ∨ c2 = 'N' then
          match rest2 with
          | d :: _ =>
            if d.isDigit then some (digitsToNat (rest2.takeWhile Char.isDigit))
            else none
          | [] => none
        else leadingNumber rest
    else none

/-- Letters n and N are not digits. -/
lemma nN_not_digit {c : Char} (h : c = 'n' ∨ c = 'N') : c.isDigit = false := by
  rcases h with h | h <;> subst h <;> decide

/-- The per-position token grammar agrees with the backtracking attempt
of the regex after a hash mark. -/
lemma specTokenAt_cons (c : Char) (rest : List Char) :
    specTokenAt (c :: rest) = if c = '#' then afterHash rest else none := by
  by_cases hc : c = '#'
  · simp only [specTokenAt, if_pos hc]
    cases rest with
    | nil => rfl
    | cons c2 rest2 =>
      by_cases hn : c2 = 'n' ∨ c2 = 'N'
      · simp only [if_pos hn]
        cases rest2 with
        | nil =>
          unfold afterHash
          simp [leadingNumber, nN_not_digit hn]
        | cons d rest3 =>
          by_cases hd : d.isDigit
          · unfold afterHash
            simp [hn, hd, leadingNumber]
          · unfold afterHash
            simp [hn, hd, leadingNumber, nN_not_digit hn]
      · simp only [if_neg hn]
        unfold afterHash
        obtain ⟨h1, h2⟩ := not_or.mp hn
        simp [h1, h2]
  · simp [specTokenAt, hc]

/-- C9 (amended): the extractor returns the value of the first token of
the form hash mark, optional letter n or N, digits, scanning positions
left to right, and nothing when no position carries such a token. -/
theorem extract_round_number_first_token (l : List Char) :
    extract_game_number l
      = (List.range l.length).findSome? (fun i => specTokenAt (l.drop i)) := by
  induction l with
  | nil => rfl
  | cons c rest ih =>
    rw [List.length_cons, List.range_succ_eq_map, List.findSome?_cons]
    have hmap : (List.findSome? (fun i => specTokenAt ((c :: rest).drop i))
          (List.map Nat.succ (List.range rest.length)))
        = (List.range rest.length).findSome? (fun i => specTokenAt (rest.drop i)) := by
      rw [List.findSome?_map]
      rfl
    rw [hmap]
    have h0 : specTokenAt ((c :: rest).drop 0) = specTokenAt (c :: rest) := rfl
    rw [h0, specTokenAt_cons]
    have ihA : extractGameAux rest
        = (List.range rest.length).findSome? (fun i => specTokenAt (rest.drop i)) := ih
    have hgoal : extract_game_number (c :: rest)
        = (if c = '#' then
            (match afterHash rest with
              | some n => some n
              | none => extractGameAux rest)
          else extractGameAux rest) := rfl
    rw [hgoal]
    by_cases hc : c = '#'
    · simp only [if_pos hc]
      cases hah : afterHash rest
      · simpa [hah] using ihA
      · simp [hah]
    · simp only [if_neg hc]
      exact ihA


/-- C4: at most one record per target (ledger keys stay duplicate-free
under record creation and verification), and `should_predict` returns a
negative decision whenever the incoming round's target already holds a
record in a pending or waiting status. -/
theorem pending_target_blocks_duplicate :
    (∀ (s : PredictorState) (now : ℤ) (message : List Char) (g : Nat) (r : PredRecord),
        extract_game_number message = some g →
        lookupKey (g + 2) s.predictions = some r →
        isPendingStatus r.status = true →
        (should_predict s now message).1.1 = false) ∧
    (∀ (s : PredictorState) (now : ℤ) (g : Nat) (c : Suit)
        (mid : Option Nat) (cid : Option Int),
        (s.predictions.map Prod.fst).Nodup →
        (((make_prediction s now g c mid cid).predictions).map Prod.fst).Nodup) ∧
    (∀ (s : PredictorState) (message : List Char),
        (s.predictions.map Prod.fst).Nodup →
        ((((verify_prediction s message).2).predictions).map Prod.fst).Nodup) := by
  refine ⟨fun s now message g r hg hr hp => should_predict_blocked hg hr hp,
    fun s now g c mid cid h => setKey_keys_nodup _ _ _ h,
    fun s message h => ?_⟩
  rw [verify_prediction_keys]
  exact h

/-- Witness for the duplicate-blocking theorem: with a pending record for
target 7 the bare round-5 message is rejected, and creation plus
verification keep the singleton ledger duplicate-free. -/
theorem pending_target_blocks_duplicate_witness :
    (should_predict pendState 100 wm5bare).1.1 = false ∧
      (((make_prediction pendState 100 5 Suit.diamond none none).predictions).map
          Prod.fst).Nodup ∧
      ((((verify_prediction pendState wm746ok).2).predictions).map Prod.fst).Nodup :=
  ⟨pending_target_blocks_duplicate.1 pendState 100 wm5bare 5 pendingRec7
      (by decide) (by decide) (by decide),
    pending_target_blocks_duplicate.2.1 pendState 100 5 Suit.diamond none none
      (by decide),
    pending_target_blocks_duplicate.2.2 pendState wm746ok (by decide)⟩

end CardPredictor
